import Mathlib

/-!
Verification of the `icdc_helper_scripts` repository against its design
specification.

The development shallowly embeds the validation logic of
`file-copy-validator.py` (the tiered ETag / size / MD5 comparison, the
resumable main sweep, and the temporary-file handling of `compare_md5`),
the patient cross-validation of `match_manifest_validator.py`
(`validate_patient_file_count`, `get_patients_for_arm`,
`validate_patient_count`) and the `split_s3_path` helper shared by
`file-copy-validator.py` and `file-integrity-testing.py`.

External effects (S3 head / download calls, the `get_md5` digest from the
`bento.common` library) are modelled as components of an explicit world
record; the local filesystem and call counters are threaded as explicit
state, so that "the digest routine is never invoked" and "no temporary file
remains on disk" become provable statements.
-/

deriving instance DecidableEq for Except

namespace ICDC

/-! ## Constants of `file-copy-validator.py` -/

def SUCCEEDED : String := "Succeeded"

def FAILED : String := "Failed"

def PREVIOUSE_VALIDATED : String := ": in previous validation"

/-! ## The S3 world and the explicit local state

`head_object` answers with an ETag and a ContentLength or raises; a raised
`ClientError` carries an error code and message (formatted
`f"{code}: {message}"` by `validate_file`), any other exception carries just
its message.  Downloads either deliver the object's content or raise with a
message.  `get_md5` (from `bento.common.utils`, outside this repository) is
an opaque digest function of the downloaded content. -/

structure HeadObj where
  eTag : String
  contentLength : Nat
deriving Repr, DecidableEq

inductive S3Error where
  | clientError (code msg : String)
  | otherError (msg : String)
deriving Repr, DecidableEq

/-- The reason string `validate_file` builds from a raised error:
`f"{e.response['Error']['Code']}: {e.response['Error']['Message']}"` for a
`ClientError`, the exception itself otherwise. -/
def S3Error.message : S3Error → String
  | .clientError code msg => code ++ ": " ++ msg
  | .otherError msg => msg

structure S3World where
  /-- `s3.head_object(Bucket=dest_bucket, Key=key)` -/
  headDest : String → Except S3Error HeadObj
  /-- `s3.head_object(Bucket=src_bucket, Key=key)` (resume branch of `main`) -/
  headSrc : String → Except S3Error HeadObj
  /-- `s3.download_fileobj(src_bucket, key, data)`: content, or exception message -/
  downloadSrc : String → Except String String
  /-- `s3.download_fileobj(dest_bucket, key, data)`: content, or exception message -/
  downloadDest : String → Except String String
  /-- `get_md5` applied to a downloaded content -/
  md5 : String → String

/-- Explicit local state: the set of files on disk plus instrumentation
counters (number of `compare_md5` invocations, number of `validate_file`
invocations). -/
structure FS where
  files : Finset String
  md5Calls : Nat
  validateCalls : Nat
deriving DecidableEq

/-! ## `compare_md5` (file-copy-validator.py, lines 48-82)

The Python function opens `tmp/src_<name>` for writing (which creates the
file on disk), downloads into it, and only then appends the name to its
`tmp_files` list; likewise for `tmp/dest_<name>`.  The `finally` block
removes exactly the files recorded in `tmp_files`.  An exception raised by
a download is caught and returned as a `Failed` result. -/

def compare_md5 (w : S3World) (key : String) (fs : FS) : (String × String) × FS :=
  let fs := { fs with md5Calls := fs.md5Calls + 1 }
  -- file_name = key.split('/')[-1]
  let file_name := String.mk ((key.toList.splitOn '/').getLastD [])
  let src_file_name := "tmp/src_" ++ file_name
  -- open(src_file_name, 'wb') creates the file
  let fs := { fs with files := insert src_file_name fs.files }
  match w.downloadSrc key with
  | .error e =>
      -- the exception fires before src_file_name joins tmp_files:
      -- the finally block removes nothing
      ((FAILED, e), fs)
  | .ok src_content =>
      let src_md5 := w.md5 src_content
      let dest_file_name := "tmp/dest_" ++ file_name
      -- open(dest_file_name, 'wb') creates the file
      let fs := { fs with files := insert dest_file_name fs.files }
      match w.downloadDest key with
      | .error e =>
          -- tmp_files == [src_file_name]: only it is removed
          ((FAILED, e), { fs with files := fs.files.erase src_file_name })
      | .ok dest_content =>
          let dest_md5 := w.md5 dest_content
          let fs := { fs with
            files := (fs.files.erase src_file_name).erase dest_file_name }
          if src_md5 == dest_md5 then ((SUCCEEDED, "MD5s match"), fs)
          else ((FAILED, "MD5s don't match"), fs)

/-! ## `validate_file` (file-copy-validator.py, lines 85-99) -/

/-- One source-side work item: `file['Key']`, `file['ETag']`, `file['Size']`. -/
structure SrcFile where
  key : String
  eTag : String
  size : Nat
deriving Repr, DecidableEq

def validate_file (w : S3World) (file : SrcFile) (fs : FS) : (String × String) × FS :=
  match w.headDest file.key with
  | .error (.clientError code msg) => ((FAILED, code ++ ": " ++ msg), fs)
  | .error (.otherError msg) => ((FAILED, msg), fs)
  | .ok target =>
    if file.eTag == target.eTag then ((SUCCEEDED, "ETags match"), fs)
    else if file.size == target.contentLength then
      compare_md5 w file.key fs
    else ((FAILED, "File sizes don't match"), fs)

/-! ## The main sweep (file-copy-validator.py, lines 103-201)

A row of the CSV report carries the fields of `fieldnames`.  In resume mode
(`--previous-file`) the previous report's rows are partitioned while the
work list is built: a `Succeeded` row is kept as-is (its reason annotated
with `PREVIOUSE_VALIDATED` unless it already ends with it) and replayed,
any other row triggers a fresh `head_object` on the source bucket — an
uncaught call, so a raised error aborts the whole run. -/

structure ReportRow where
  src_bucket : String
  dest_bucket : String
  file_name : String
  file_size : String
  result : String
  reason : String
deriving Repr, DecidableEq

/-- An element of `file_list`: either a previous-run row (a dict with a
`result` key) or a fresh `SrcFile` to validate. -/
inductive FileEntry where
  | replayed (row : ReportRow)
  | work (file : SrcFile)
deriving Repr, DecidableEq

/-- `int(...)` applied to the `file_size` field of a report row: the rows this
script writes carry a plain decimal numeral, anything else raises
`ValueError` (`none`). -/
def pyInt (s : String) : Option Nat :=
  if s.toList ≠ [] ∧ s.toList.all Char.isDigit then
    some (s.toList.foldl (fun n c => n * 10 + (c.toNat - '0'.toNat)) 0)
  else none

/-- `if not obj['reason'].endswith(PREVIOUSE_VALIDATED): obj['reason'] += PREVIOUSE_VALIDATED` -/
def annotate_reason (reason : String) : String :=
  if PREVIOUSE_VALIDATED.toList.isSuffixOf reason.toList then reason
  else reason ++ PREVIOUSE_VALIDATED

/-- The resume branch of `main` (lines 114-130): build `file_list` from the
rows of the previous report.  `s3.head_object` on the source bucket is not
wrapped in a `try`, so a raised error propagates and aborts the run. -/
def buildFileList (w : S3World) : List ReportRow → Except String (List FileEntry)
  | [] => .ok []
  | row :: rest =>
    if row.result == SUCCEEDED then
      let row := { row with reason := annotate_reason row.reason }
      (buildFileList w rest).map (FileEntry.replayed row :: ·)
    else
      match w.headSrc row.file_name with
      | .error e => .error (S3Error.message e)
      | .ok obj =>
          (buildFileList w rest).map
            (FileEntry.work ⟨row.file_name, obj.eTag, obj.contentLength⟩ :: ·)

/-- The per-item loop of `main` (lines 155-194).  A replayed row is written
back verbatim (then `int(file['file_size'])` is evaluated for the running
total, aborting on a non-numeric field); a work item is validated and a
fresh row is written from `src_bucket`, `dest_bucket` and the outcome.
`validateCalls` counts the `validate_file` invocations. -/
def mainLoop (w : S3World) (src_bucket dest_bucket : String) :
    List FileEntry → FS → Except String (List ReportRow × FS)
  | [], fs => .ok ([], fs)
  | .replayed row :: rest, fs =>
      match pyInt row.file_size with
      | none => .error "invalid literal for int()"
      | some _ =>
          (mainLoop w src_bucket dest_bucket rest fs).map
            (fun p => (row :: p.1, p.2))
  | .work file :: rest, fs =>
      let fs := { fs with validateCalls := fs.validateCalls + 1 }
      let res := validate_file w file fs
      let row : ReportRow :=
        ⟨src_bucket, dest_bucket, file.key, toString file.size, res.1.1, res.1.2⟩
      (mainLoop w src_bucket dest_bucket rest res.2).map
        (fun p => (row :: p.1, p.2))

/-- `main` in resume mode: build the work list from the previous report then
run the sweep.  (In the Python source the `src_bucket` / `dest_bucket`
variables used for fresh rows hold the values read from the report's last
row; they are abstracted as parameters here, the claims do not depend on
them.) -/
def mainResume (w : S3World) (src_bucket dest_bucket : String)
    (rows : List ReportRow) (fs : FS) : Except String (List ReportRow × FS) :=
  (buildFileList w rows).bind (fun entries => mainLoop w src_bucket dest_bucket entries fs)

/-! ### Pure per-entry views of the sweep, used to state the theorems -/

/-- The empty starting state. -/
def FS.init : FS := ⟨∅, 0, 0⟩

/-- The report row the sweep writes for one `file_list` entry.  (The result
pair of `validate_file` does not depend on the threaded state, see
`validate_file_fst_indep`.) -/
def rowFor (w : S3World) (src_bucket dest_bucket : String) : FileEntry → ReportRow
  | .replayed row => row
  | .work file =>
      ⟨src_bucket, dest_bucket, file.key, toString file.size,
        (validate_file w file FS.init).1.1, (validate_file w file FS.init).1.2⟩

/-- The replayed rows whose `file_size` field `int()` accepts. -/
def entryParses : FileEntry → Prop
  | .replayed row => (pyInt row.file_size).isSome = true
  | .work _ => True

instance : DecidablePred entryParses := by
  intro e
  cases e <;> simp [entryParses] <;> infer_instance

/-- How many entries of the list are fresh work items. -/
def numWork : List FileEntry → Nat
  | [] => 0
  | .replayed _ :: rest => numWork rest
  | .work _ :: rest => numWork rest + 1

/-- The `file_list` entry the resume branch builds from one previous-report
row (under the hypothesis that `head_object` succeeds for re-checked rows). -/
def entryFor (w : S3World) (r : ReportRow) : FileEntry :=
  if r.result == SUCCEEDED then
    .replayed { r with reason := annotate_reason r.reason }
  else
    match w.headSrc r.file_name with
    | .ok obj => .work ⟨r.file_name, obj.eTag, obj.contentLength⟩
    | .error _ => .work ⟨r.file_name, "", 0⟩

/-! ## `match_manifest_validator.py`: patient cross-validation

`self.patients` is the nested dictionary built by `validate_file_patient`:
patient id ↦ file type ↦ file name ↦ occurrence count.  It is embedded as a
nested association list (dictionary keys are unique, which none of the
theorems need). -/

def NUM_FILE_TYPES : Nat := 5

/-- patient ↦ file type ↦ file name ↦ count -/
abbrev Patients := List (String × List (String × List (String × Nat)))

/-- `ManifestValidator.validate_patient_file_count` (lines 102-121): walk
every patient, flag a patient whose number of file types is not
`NUM_FILE_TYPES` and every (file type, file name) slot whose count is not 1;
the flag only ever moves from `True` to `False`. -/
def validate_patient_file_count (patients : Patients) : Bool :=
  patients.foldl
    (fun result pat =>
      let file_types := pat.2
      let result := if file_types.length == NUM_FILE_TYPES then result else false
      file_types.foldl
        (fun result ty =>
          ty.2.foldl
            (fun result f => if f.2 == 1 then result else false)
            result)
        result)
    true

/-- One entry of `summaryReport.assignmentRecords` of the latest arm
version: `patient.get('slot', -1)` read as an integer (`none` when the key
is absent), and `patient.get('patientSequenceNumber')`. -/
structure AssignmentRecord where
  slot : Option Int
  patientSequenceNumber : String
deriving Repr, DecidableEq

/-- The assignment records `_retrieve_arm_info(arm_id)` delivers, i.e.
`arm.get('summaryReport', {}).get('assignmentRecords', [])`. -/
abbrev ArmRecords := String → List AssignmentRecord

/-- `ManifestValidator.get_patients_for_arm` (lines 171-186): the set of
`patientSequenceNumber`s of records with `int(patient.get('slot', -1)) > 0`. -/
def get_patients_for_arm (arm_records : ArmRecords) (arm_id : String) : Finset String :=
  (arm_records arm_id).foldl
    (fun patients patient =>
      let slot := patient.slot.getD (-1)
      if slot > 0 then insert patient.patientSequenceNumber patients else patients)
    ∅

/-- `ManifestValidator.validate_patient_count` (lines 123-148): union the
slot-positive patient sets of all configured arms, then flag every manifest
patient missing from the union and every union patient missing from the
manifest.  `manifest_patients` is `self.patients.keys()`. -/
def validate_patient_count (arm_records : ArmRecords) (arms : List String)
    (manifest_patients : List String) : Bool :=
  let all_patients : Finset String :=
    arms.foldl (fun acc arm_id => acc ∪ get_patients_for_arm arm_records arm_id) ∅
  let result : Bool :=
    manifest_patients.foldl
      (fun result patient => if patient ∈ all_patients then result else false) true
  -- second loop: flag every union patient missing from the manifest; its net
  -- effect on the flag is the conjunction below
  result && decide (∀ patient ∈ all_patients, patient ∈ manifest_patients)

/-! ## `split_s3_path` (file-copy-validator.py lines 30-34,
file-integrity-testing.py lines 9-16)

`s3_path.replace("s3://", "")` removes every occurrence of `"s3://"`,
scanning left to right; then the remainder is split on `"/"`, the first
part popped as the bucket and the rest rejoined with `"/"` as the key.
The string operations are modelled character by character. -/

/-- `"s3://"` as a character list. -/
def s3Pat : List Char := ['s', '3', ':', '/', '/']

/-- `str.replace("s3://", "")`: drop every (non-overlapping, left-to-right)
occurrence of `"s3://"`. -/
def stripS3 : List Char → List Char
  | 's' :: '3' :: ':' :: '/' :: '/' :: s => stripS3 s
  | c :: s => c :: stripS3 s
  | [] => []

/-- `split_s3_path`: strip `"s3://"`, split on `'/'`, pop the first part as
the bucket, rejoin the rest as the key.  (`split` always yields at least one
part, so the `[]` branch is unreachable.) -/
def split_s3_path (s3_path : List Char) : List Char × List Char :=
  match (stripS3 s3_path).splitOn '/' with
  | [] => ([], [])
  | bucket :: rest => (bucket, List.intercalate ['/'] rest)

/-! ## Concrete fixtures for the witness and counterexample theorems -/

/-- A world whose destination-head, source-head and download calls all
succeed; the digest function is the identity on the downloaded content. -/
def wEx : S3World where
  headDest := fun _ => .ok ⟨"tag-dest", 100⟩
  headSrc := fun _ => .ok ⟨"tag-src", 50⟩
  downloadSrc := fun _ => .ok "AAA"
  downloadDest := fun _ => .ok "BBB"
  md5 := fun c => c

/-- A world where downloading the source copy raises mid-transfer. -/
def wLeak : S3World where
  headDest := fun _ => .ok ⟨"tag-dest", 100⟩
  headSrc := fun _ => .ok ⟨"tag-src", 50⟩
  downloadSrc := fun _ => .error "connection reset"
  downloadDest := fun _ => .ok "BBB"
  md5 := fun c => c

/-- A world where `head_object` on the source bucket raises a `ClientError`. -/
def wAbort : S3World where
  headDest := fun _ => .ok ⟨"tag-dest", 100⟩
  headSrc := fun _ => .error (.clientError "404" "Not Found")
  downloadSrc := fun _ => .ok "AAA"
  downloadDest := fun _ => .ok "BBB"
  md5 := fun c => c

/-- A world where `head_object` on the destination bucket raises. -/
def wHeadErr : S3World where
  headDest := fun _ => .error (.clientError "404" "Not Found")
  headSrc := fun _ => .ok ⟨"tag-src", 50⟩
  downloadSrc := fun _ => .ok "AAA"
  downloadDest := fun _ => .ok "BBB"
  md5 := fun c => c

/-- A previously succeeded report row. -/
def succRow : ReportRow := ⟨"sb", "db", "a.txt", "5", SUCCEEDED, "ETags match"⟩

/-- A previously failed report row. -/
def failRow : ReportRow := ⟨"sb", "db", "b.txt", "7", FAILED, "File sizes don't match"⟩

/-! ## Basic lemmas about `compare_md5` and `validate_file` -/

/-- The result pair of `compare_md5` does not depend on the threaded local
state. -/
theorem compare_md5_fst_indep (w : S3World) (key : String) (fs fs' : FS) :
    (compare_md5 w key fs).1 = (compare_md5 w key fs').1 := by
  unfold compare_md5
  cases w.downloadSrc key with
  | error e => rfl
  | ok c =>
      cases w.downloadDest key with
      | error e => rfl
      | ok d => by_cases h : (w.md5 c == w.md5 d) = true <;> simp [h]

/-- `compare_md5` never touches the `validate_file` invocation counter. -/
theorem compare_md5_validateCalls (w : S3World) (key : String) (fs : FS) :
    (compare_md5 w key fs).2.validateCalls = fs.validateCalls := by
  unfold compare_md5
  cases w.downloadSrc key with
  | error e => rfl
  | ok c =>
      cases w.downloadDest key with
      | error e => rfl
      | ok d => by_cases h : (w.md5 c == w.md5 d) = true <;> simp [h]

/-- The result pair of `validate_file` does not depend on the threaded local
state. -/
theorem validate_file_fst_indep (w : S3World) (file : SrcFile) (fs fs' : FS) :
    (validate_file w file fs).1 = (validate_file w file fs').1 := by
  unfold validate_file
  cases w.headDest file.key with
  | error e => cases e <;> rfl
  | ok target =>
      by_cases h1 : (file.eTag == target.eTag) = true
      · simp [h1]
      · by_cases h2 : (file.size == target.contentLength) = true <;>
          simp [h1, h2, compare_md5_fst_indep w file.key fs fs']

/-- `validate_file` never touches the `validate_file` invocation counter
(the counter is bumped by the main loop at each call site). -/
theorem validate_file_validateCalls (w : S3World) (file : SrcFile) (fs : FS) :
    (validate_file w file fs).2.validateCalls = fs.validateCalls := by
  unfold validate_file
  cases w.headDest file.key with
  | error e => cases e <;> rfl
  | ok target =>
      by_cases h1 : (file.eTag == target.eTag) = true
      · simp [h1]
      · by_cases h2 : (file.size == target.contentLength) = true <;>
          simp [h1, h2, compare_md5_validateCalls w file.key fs]

/-- C1: if the destination object exists but its ETag differs from the
source's and the declared sizes (`Size` vs `ContentLength`) also differ,
`validate_file` answers `Failed` with the size-mismatch reason, leaves the
state untouched and in particular never invokes the digest routine
`compare_md5` (its invocation counter is unchanged). -/
theorem validate_file_size_mismatch_no_digest
    (w : S3World) (file : SrcFile) (fs : FS) (target : HeadObj)
    (hhead : w.headDest file.key = .ok target)
    (htag : file.eTag ≠ target.eTag)
    (hsize : file.size ≠ target.contentLength) :
    validate_file w file fs = ((FAILED, "File sizes don't match"), fs) ∧
    (validate_file w file fs).2.md5Calls = fs.md5Calls := by
  have h : validate_file w file fs = ((FAILED, "File sizes don't match"), fs) := by
    simp [validate_file, hhead, htag, hsize]
  exact ⟨h, by rw [h]⟩

/-- Witness for C1 at a concrete item: tags `"tag-src"` vs `"tag-dest"`,
sizes 5 vs 100. -/
theorem validate_file_size_mismatch_no_digest_witness :
    validate_file wEx ⟨"a.txt", "tag-src", 5⟩ FS.init
      = ((FAILED, "File sizes don't match"), FS.init) ∧
    (validate_file wEx ⟨"a.txt", "tag-src", 5⟩ FS.init).2.md5Calls = FS.init.md5Calls :=
  validate_file_size_mismatch_no_digest wEx ⟨"a.txt", "tag-src", 5⟩ FS.init
    ⟨"tag-dest", 100⟩ rfl (by decide) (by decide)

/-- C2: if the destination object exists and its ETag equals the source's,
`validate_file` answers `Succeeded` with the tags-match reason — for every
source size and destination ContentLength, i.e. regardless of sizes — and
leaves the state untouched (no digest computation: `md5Calls` unchanged). -/
theorem validate_file_tags_match_short_circuits
    (w : S3World) (file : SrcFile) (fs : FS) (target : HeadObj)
    (hhead : w.headDest file.key = .ok target)
    (htag : file.eTag = target.eTag) :
    validate_file w file fs = ((SUCCEEDED, "ETags match"), fs) ∧
    (validate_file w file fs).2.md5Calls = fs.md5Calls := by
  have h : validate_file w file fs = ((SUCCEEDED, "ETags match"), fs) := by
    simp [validate_file, hhead, htag]
  exact ⟨h, by rw [h]⟩

/-- Witness for C2 at a concrete item whose sizes differ (5 vs 100) yet whose
tags agree. -/
theorem validate_file_tags_match_short_circuits_witness :
    validate_file wEx ⟨"a.txt", "tag-dest", 5⟩ FS.init
      = ((SUCCEEDED, "ETags match"), FS.init) ∧
    (validate_file wEx ⟨"a.txt", "tag-dest", 5⟩ FS.init).2.md5Calls = FS.init.md5Calls :=
  validate_file_tags_match_short_circuits wEx ⟨"a.txt", "tag-dest", 5⟩ FS.init
    ⟨"tag-dest", 100⟩ rfl rfl

/-- C3: if the destination object exists, the tags differ and the declared
sizes agree, the outcome is decided by comparing the digests of the two
downloaded copies: equal digests give `Succeeded` / "MD5s match", different
digests give `Failed` / "MD5s don't match". -/
theorem validate_file_digest_decides
    (w : S3World) (file : SrcFile) (fs : FS) (target : HeadObj) (c d : String)
    (hhead : w.headDest file.key = .ok target)
    (htag : file.eTag ≠ target.eTag)
    (hsize : file.size = target.contentLength)
    (hdls : w.downloadSrc file.key = .ok c)
    (hdld : w.downloadDest file.key = .ok d) :
    (validate_file w file fs).1 =
      if w.md5 c = w.md5 d then (SUCCEEDED, "MD5s match")
      else (FAILED, "MD5s don't match") := by
  simp only [validate_file, hhead, compare_md5, hdls, hdld]
  by_cases h : w.md5 c = w.md5 d <;> simp [htag, hsize, h]

/-- Witness for C3: tags differ, sizes both 100, identity digests of
contents `"AAA"` and `"BBB"`, hence `Failed`. -/
theorem validate_file_digest_decides_witness :
    (validate_file wEx ⟨"a.txt", "tag-src", 100⟩ FS.init).1 =
      if wEx.md5 "AAA" = wEx.md5 "BBB" then (SUCCEEDED, "MD5s match")
      else (FAILED, "MD5s don't match") :=
  validate_file_digest_decides wEx ⟨"a.txt", "tag-src", 100⟩ FS.init
    ⟨"tag-dest", 100⟩ "AAA" "BBB" rfl (by decide) rfl rfl rfl

/-- C7 fails on the code: when the source download raises mid-transfer, the
file `tmp/src_<name>` — already created by `open(..., 'wb')` — was not yet
recorded in `tmp_files`, so the `finally` block removes nothing and the
temporary file survives `compare_md5`'s return.  Starting from an empty
disk, validating `a.txt` in a world whose source download raises leaves
`tmp/src_a.txt` on disk. -/
theorem compare_md5_leaks_tmp_file_on_download_error :
    (compare_md5 wLeak "a.txt" FS.init).1 = (FAILED, "connection reset") ∧
    "tmp/src_a.txt" ∈ (compare_md5 wLeak "a.txt" FS.init).2.files ∧
    FS.init.files = ∅ := by decide

/-! ## The main sweep: one row per entry, in order -/

/-- Under the parse hypothesis for replayed rows, the main loop succeeds,
writes exactly the row of each entry in input order, and bumps the
`validate_file` counter once per fresh work item. -/
theorem mainLoop_ok (w : S3World) (sb db : String) (entries : List FileEntry) :
    ∀ fs : FS, (∀ e ∈ entries, entryParses e) →
      ∃ fs', mainLoop w sb db entries fs = .ok (entries.map (rowFor w sb db), fs')
        ∧ fs'.validateCalls = fs.validateCalls + numWork entries := by
  induction entries with
  | nil => exact fun fs _ => ⟨fs, rfl, by simp [numWork]⟩
  | cons e rest ih =>
      intro fs h
      have hrest : ∀ e ∈ rest, entryParses e := fun e he => h e (List.mem_cons_of_mem _ he)
      cases e with
      | replayed row =>
          have hp : (pyInt row.file_size).isSome = true := h _ (List.mem_cons_self _ _)
          obtain ⟨v, hv⟩ := Option.isSome_iff_exists.mp hp
          obtain ⟨fs', h1, h2⟩ := ih fs hrest
          refine ⟨fs', ?_, ?_⟩
          · simp [mainLoop, hv, h1, rowFor, Except.map]
          · simpa [numWork] using h2
      | work file =>
          obtain ⟨fs', h1, h2⟩ :=
            ih (validate_file w file { fs with validateCalls := fs.validateCalls + 1 }).2 hrest
          refine ⟨fs', ?_, ?_⟩
          · have hr : (validate_file w file
                { fs with validateCalls := fs.validateCalls + 1 }).1
                = (validate_file w file FS.init).1 :=
              validate_file_fst_indep w file _ _
            simp [mainLoop, h1, rowFor, hr, Except.map]
          · rw [h2, validate_file_validateCalls]
            simp [numWork]
            omega

/-- C6: for every work list — a live listing (all fresh items) or a replayed
report (a mix of replayed rows and re-fetched items) — the sweep emits
exactly one report row per input entry, in input order: the output length
equals the input length and the i-th row is the row of the i-th entry. -/
theorem mainLoop_one_row_per_item_in_order
    (w : S3World) (sb db : String) (entries : List FileEntry) (fs : FS)
    (h : ∀ e ∈ entries, entryParses e) :
    ∃ out fs', mainLoop w sb db entries fs = .ok (out, fs') ∧
      out.length = entries.length ∧
      ∀ i : Nat, out[i]? = (entries[i]?).map (rowFor w sb db) := by
  obtain ⟨fs', h1, _⟩ := mainLoop_ok w sb db entries fs h
  exact ⟨entries.map (rowFor w sb db), fs', h1, by simp, fun i => by simp⟩

/-- Witness for C6 on a two-entry list: one replayed row, one fresh item. -/
theorem mainLoop_one_row_per_item_in_order_witness :
    ∃ out fs',
      mainLoop wEx "sb" "db" [.replayed succRow, .work ⟨"c.txt", "tag-src", 100⟩] FS.init
        = .ok (out, fs') ∧
      out.length = [FileEntry.replayed succRow, .work ⟨"c.txt", "tag-src", 100⟩].length ∧
      ∀ i : Nat, out[i]? =
        ([FileEntry.replayed succRow, .work ⟨"c.txt", "tag-src", 100⟩][i]?).map
          (rowFor wEx "sb" "db") :=
  mainLoop_one_row_per_item_in_order wEx "sb" "db"
    [.replayed succRow, .work ⟨"c.txt", "tag-src", 100⟩] FS.init
    (by intro e he; fin_cases he <;> decide)

/-! ## Resume semantics -/

/-- Under the hypotheses that every row of the previous report is
`Succeeded` or `Failed` and the source `head_object` succeeds on every
failed row, the resume branch builds exactly one `file_list` entry per row,
in order. -/
theorem buildFileList_ok (w : S3World) (rows : List ReportRow)
    (hres : ∀ r ∈ rows, r.result = SUCCEEDED ∨ r.result = FAILED)
    (hhead : ∀ r ∈ rows, r.result = FAILED → ∃ o, w.headSrc r.file_name = .ok o) :
    buildFileList w rows = .ok (rows.map (entryFor w)) := by
  induction rows with
  | nil => rfl
  | cons r rest ih =>
      have ihr := ih (fun x hx => hres x (List.mem_cons_of_mem _ hx))
        (fun x hx => hhead x (List.mem_cons_of_mem _ hx))
      rcases hres r (List.mem_cons_self _ _) with h | h
      · simp [buildFileList, entryFor, h, ihr, Except.map]
      · obtain ⟨o, ho⟩ := hhead r (List.mem_cons_self _ _) h
        have hne : (r.result == SUCCEEDED) = false := by
          rw [h]; decide
        simp [buildFileList, entryFor, hne, ho, ihr, Except.map]

/-- A previous-report row yields a fresh work item exactly when it was not
`Succeeded`; `numWork` over the built list counts the failed rows. -/
theorem numWork_map_entryFor (w : S3World) (rows : List ReportRow)
    (hres : ∀ r ∈ rows, r.result = SUCCEEDED ∨ r.result = FAILED) :
    numWork (rows.map (entryFor w)) =
      (rows.filter (fun r => r.result == FAILED)).length := by
  induction rows with
  | nil => rfl
  | cons r rest ih =>
      have ihr := ih (fun x hx => hres x (List.mem_cons_of_mem _ hx))
      rcases hres r (List.mem_cons_self _ _) with h | h
      · simp [entryFor, h, numWork, List.filter_cons, ihr, SUCCEEDED, FAILED]
      · cases ho : w.headSrc r.file_name <;>
          simp [entryFor, h, ho, numWork, List.filter_cons, ihr, SUCCEEDED, FAILED]

/-- With every row `Succeeded` or `Failed`, the succeeded and failed rows
partition the report. -/
theorem filter_succ_add_filter_fail (rows : List ReportRow)
    (hres : ∀ r ∈ rows, r.result = SUCCEEDED ∨ r.result = FAILED) :
    (rows.filter (fun r => r.result == SUCCEEDED)).length
      + (rows.filter (fun r => r.result == FAILED)).length = rows.length := by
  induction rows with
  | nil => rfl
  | cons r rest ih =>
      have ihr := ih (fun x hx => hres x (List.mem_cons_of_mem _ hx))
      rcases hres r (List.mem_cons_self _ _) with h | h <;>
        · simp [List.filter_cons, h, SUCCEEDED, FAILED] at ihr ⊢
          omega

/-- Every entry built from a parseable previous report parses: a replayed
entry keeps the row's `file_size` field, a re-fetched entry always parses. -/
theorem entryParses_map_entryFor (w : S3World) (rows : List ReportRow)
    (hparse : ∀ r ∈ rows, r.result = SUCCEEDED → (pyInt r.file_size).isSome = true) :
    ∀ e ∈ rows.map (entryFor w), entryParses e := by
  intro e he
  obtain ⟨r, hr, rfl⟩ := List.mem_map.mp he
  by_cases h : (r.result == SUCCEEDED) = true
  · simp only [entryFor, h, if_true]
    exact hparse r hr (beq_iff_eq.mp h)
  · simp only [entryFor, h, if_false]
    cases w.headSrc r.file_name <;> trivial

/-- C4: resuming from a report of N `Succeeded` and M `Failed` rows (with
the re-fetch succeeding on the failed ones and the succeeded rows carrying a
numeric size, as the reports this script writes do) re-checks exactly the M
failed items — `validate_file` runs M times — replays each succeeded row in
place with its reason annotated by `annotate_reason` (which appends
`: in previous validation` only when not already present), and produces a
report of exactly N + M rows. -/
theorem resume_replays_succeeded_rechecks_failed
    (w : S3World) (sb db : String) (rows : List ReportRow) (fs : FS)
    (hres : ∀ r ∈ rows, r.result = SUCCEEDED ∨ r.result = FAILED)
    (hparse : ∀ r ∈ rows, r.result = SUCCEEDED → (pyInt r.file_size).isSome = true)
    (hhead : ∀ r ∈ rows, r.result = FAILED → ∃ o, w.headSrc r.file_name = .ok o) :
    ∃ out fs',
      mainResume w sb db rows fs = .ok (out, fs') ∧
      out.length = (rows.filter (fun r => r.result == SUCCEEDED)).length
        + (rows.filter (fun r => r.result == FAILED)).length ∧
      fs'.validateCalls = fs.validateCalls
        + (rows.filter (fun r => r.result == FAILED)).length ∧
      ∀ i : Nat, ∀ r, rows[i]? = some r → r.result = SUCCEEDED →
        out[i]? = some { r with reason := annotate_reason r.reason } := by
  obtain ⟨fs', hloop, hcount⟩ :=
    mainLoop_ok w sb db (rows.map (entryFor w)) fs (entryParses_map_entryFor w rows hparse)
  refine ⟨(rows.map (entryFor w)).map (rowFor w sb db), fs', ?_, ?_, ?_, ?_⟩
  · simp only [mainResume, buildFileList_ok w rows hres hhead, Except.bind, hloop]
  · rw [filter_succ_add_filter_fail rows hres]; simp
  · rw [hcount, numWork_map_entryFor w rows hres]
  · intro i r hi hsucc
    have hmap : (rows.map (entryFor w))[i]? = some (entryFor w r) := by
      simp [List.getElem?_map, hi]
    have : entryFor w r = .replayed { r with reason := annotate_reason r.reason } := by
      simp [entryFor, hsucc]
    simp only [List.getElem?_map, hi, Option.map_some', this, rowFor]

/-- Witness for C4: a two-row previous report, one `Succeeded` row and one
`Failed` row, resumed in a world whose lookups succeed. -/
theorem resume_replays_succeeded_rechecks_failed_witness :
    ∃ out fs',
      mainResume wEx "sb" "db" [succRow, failRow] FS.init = .ok (out, fs') ∧
      out.length = ([succRow, failRow].filter (fun r => r.result == SUCCEEDED)).length
        + ([succRow, failRow].filter (fun r => r.result == FAILED)).length ∧
      fs'.validateCalls = FS.init.validateCalls
        + ([succRow, failRow].filter (fun r => r.result == FAILED)).length ∧
      ∀ i : Nat, ∀ r, [succRow, failRow][i]? = some r → r.result = SUCCEEDED →
        out[i]? = some { r with reason := annotate_reason r.reason } :=
  resume_replays_succeeded_rechecks_failed wEx "sb" "db" [succRow, failRow] FS.init
    (by intro r hr; fin_cases hr <;> [left; right] <;> rfl)
    (by intro r hr _; fin_cases hr <;> decide)
    (by
      intro r hr h
      exact ⟨⟨"tag-src", 50⟩, rfl⟩)

/-! ## Error handling -/

/-- C5 fails on the code as stated: re-fetching the metadata of a
previously-`Failed` row during resume-list construction uses an uncaught
`head_object` call, so a per-item lookup error there aborts the whole run
instead of becoming a `Failed` row.  Concretely, resuming from a one-row
report whose single `Failed` item hits a 404 on the source bucket makes the
run abort with that error, producing no report rows at all. -/
theorem resume_lookup_error_aborts_run :
    failRow.result = FAILED ∧
    mainResume wAbort "sb" "db" [failRow] FS.init = .error "404: Not Found" := by
  decide

/-- C5 amended: an error raised while checking one work item inside the
sweep — a destination `head_object` failure, or a download failure at
either stage of the digest fallback — is converted into a `Failed` row
whose reason is the error's message, and the remaining items are still
processed (one row each, in order).  The exception the counterexample
forces: in resume mode, a source `head_object` error for a previously
failed row occurs during list construction, before any item is processed,
and aborts the run. -/
theorem per_item_errors_become_failed_rows
    (w : S3World) (sb db : String) (file : SrcFile) (rest : List FileEntry)
    (fs : FS) (err : S3Error) (target : HeadObj) (m c : String)
    (hrest : ∀ e ∈ rest, entryParses e) :
    (w.headDest file.key = .error err →
      ∃ fs', mainLoop w sb db (.work file :: rest) fs =
        .ok (⟨sb, db, file.key, toString file.size, FAILED, err.message⟩ ::
          rest.map (rowFor w sb db), fs')) ∧
    (w.headDest file.key = .ok target → file.eTag ≠ target.eTag →
      file.size = target.contentLength → w.downloadSrc file.key = .error m →
      ∃ fs', mainLoop w sb db (.work file :: rest) fs =
        .ok (⟨sb, db, file.key, toString file.size, FAILED, m⟩ ::
          rest.map (rowFor w sb db), fs')) ∧
    (w.headDest file.key = .ok target → file.eTag ≠ target.eTag →
      file.size = target.contentLength → w.downloadSrc file.key = .ok c →
      w.downloadDest file.key = .error m →
      ∃ fs', mainLoop w sb db (.work file :: rest) fs =
        .ok (⟨sb, db, file.key, toString file.size, FAILED, m⟩ ::
          rest.map (rowFor w sb db), fs')) := by
  obtain ⟨fs', h1, _⟩ := mainLoop_ok w sb db (.work file :: rest) fs
    (by
      intro e he
      rcases List.mem_cons.mp he with h | h
      · rw [h]; trivial
      · exact hrest e h)
  refine ⟨?_, ?_, ?_⟩
  · intro hhead
    have hv : (validate_file w file FS.init).1 = (FAILED, err.message) := by
      cases err <;> simp [validate_file, hhead, S3Error.message]
    exact ⟨fs', by rw [h1]; simp [rowFor, hv]⟩
  · intro hhead htag hsize hdl
    have hv : (validate_file w file FS.init).1 = (FAILED, m) := by
      simp [validate_file, compare_md5, hhead, htag, hsize, hdl]
    exact ⟨fs', by rw [h1]; simp [rowFor, hv]⟩
  · intro hhead htag hsize hdls hdld
    have hv : (validate_file w file FS.init).1 = (FAILED, m) := by
      simp [validate_file, compare_md5, hhead, htag, hsize, hdls, hdld]
    exact ⟨fs', by rw [h1]; simp [rowFor, hv]⟩

/-- Witness for the amended C5 at a concrete item whose destination head
lookup answers 404. -/
theorem per_item_errors_become_failed_rows_witness :
    (wHeadErr.headDest "a.txt" = .error (.clientError "404" "Not Found") →
      ∃ fs', mainLoop wHeadErr "sb" "db" [.work ⟨"a.txt", "tag-src", 5⟩] FS.init =
        .ok ([⟨"sb", "db", "a.txt", toString (5 : Nat), FAILED,
          (S3Error.clientError "404" "Not Found").message⟩], fs')) ∧
    (wHeadErr.headDest "a.txt" = .ok ⟨"tag-dest", 100⟩ →
      "tag-src" ≠ "tag-dest" → (5 : Nat) = 100 →
      wHeadErr.downloadSrc "a.txt" = .error "boom" →
      ∃ fs', mainLoop wHeadErr "sb" "db" [.work ⟨"a.txt", "tag-src", 5⟩] FS.init =
        .ok ([⟨"sb", "db", "a.txt", toString (5 : Nat), FAILED, "boom"⟩], fs')) ∧
    (wHeadErr.headDest "a.txt" = .ok ⟨"tag-dest", 100⟩ →
      "tag-src" ≠ "tag-dest" → (5 : Nat) = 100 →
      wHeadErr.downloadSrc "a.txt" = .ok "AAA" →
      wHeadErr.downloadDest "a.txt" = .error "boom" →
      ∃ fs', mainLoop wHeadErr "sb" "db" [.work ⟨"a.txt", "tag-src", 5⟩] FS.init =
        .ok ([⟨"sb", "db", "a.txt", toString (5 : Nat), FAILED, "boom"⟩], fs')) := by
  have h := per_item_errors_become_failed_rows wHeadErr "sb" "db"
    ⟨"a.txt", "tag-src", 5⟩ [] FS.init (.clientError "404" "Not Found")
    ⟨"tag-dest", 100⟩ "boom" "AAA" (by intro e he; cases he)
  simpa using h

/-! ## Patient cross-validation -/

/-- A fold whose step is conclusive-or-pass-through: once the flag is
`false` it stays `false`, and from `true` each element contributes its own
check.  Such a fold computes the conjunction of the seed with all checks. -/
theorem foldl_flagbody {α : Type} (body : α → Bool → Bool) (check : α → Bool)
    (h1 : ∀ x, body x true = check x) (h0 : ∀ x, body x false = false)
    (l : List α) (acc : Bool) :
    l.foldl (fun r x => body x r) acc = (acc && l.all check) := by
  induction l generalizing acc with
  | nil => simp
  | cons a l ih =>
      cases acc
      · simp only [List.foldl_cons, h0, ih]
        simp
      · simp only [List.foldl_cons, h1, ih]
        simp [List.all_cons]

/-- C8: `validate_patient_file_count` answers `True` exactly when every
recorded patient has exactly `NUM_FILE_TYPES` (five) file types and every
(patient, file type, file name) slot was counted exactly once; any missing
or extra file type and any duplicated file flips the answer to `False`. -/
theorem validate_patient_file_count_iff (patients : Patients) :
    validate_patient_file_count patients = true ↔
      ∀ p ∈ patients, p.2.length = NUM_FILE_TYPES ∧
        ∀ ty ∈ p.2, ∀ f ∈ ty.2, f.2 = 1 := by
  have hfile : ∀ (files : List (String × Nat)) (acc : Bool),
      files.foldl (fun r f => if f.2 == 1 then r else false) acc
        = (acc && files.all (fun f => f.2 == 1)) := fun files acc =>
    foldl_flagbody (fun f r => if f.2 == 1 then r else false) (fun f => f.2 == 1)
      (fun f => by cases h : (f.2 == 1) <;> simp [h])
      (fun f => by cases h : (f.2 == 1) <;> simp [h]) files acc
  have hty : ∀ (tys : List (String × List (String × Nat))) (acc : Bool),
      tys.foldl
          (fun r ty => ty.2.foldl (fun r f => if f.2 == 1 then r else false) r) acc
        = (acc && tys.all (fun ty => ty.2.all (fun f => f.2 == 1))) := fun tys acc =>
    foldl_flagbody
      (fun ty r => ty.2.foldl (fun r f => if f.2 == 1 then r else false) r)
      (fun ty => ty.2.all (fun f => f.2 == 1))
      (fun ty => by simp only [hfile]; simp)
      (fun ty => by simp only [hfile]; simp) tys acc
  have hdef : validate_patient_file_count patients
      = patients.foldl
          (fun result pat =>
            pat.2.foldl
              (fun r ty => ty.2.foldl (fun r f => if f.2 == 1 then r else false) r)
              (if pat.2.length == NUM_FILE_TYPES then result else false))
          true := rfl
  have houter : validate_patient_file_count patients
      = patients.all (fun pat =>
          (pat.2.length == NUM_FILE_TYPES)
            && pat.2.all (fun ty => ty.2.all (fun f => f.2 == 1))) := by
    rw [hdef,
      foldl_flagbody
        (fun pat r =>
          pat.2.foldl
            (fun r ty => ty.2.foldl (fun r f => if f.2 == 1 then r else false) r)
            (if pat.2.length == NUM_FILE_TYPES then r else false))
        (fun pat =>
          (pat.2.length == NUM_FILE_TYPES)
            && pat.2.all (fun ty => ty.2.all (fun f => f.2 == 1)))
        (fun pat => by simp only [hty]; cases h : (pat.2.length == NUM_FILE_TYPES) <;> simp [h])
        (fun pat => by simp only [hty]; simp)
        patients true]
    simp
  rw [houter]
  simp [List.all_eq_true]

/-- Membership in the patient set `get_patients_for_arm` accumulates. -/
theorem mem_get_patients_for_arm (f : ArmRecords) (a : String) (p : String) :
    p ∈ get_patients_for_arm f a ↔
      ∃ r ∈ f a, r.slot.getD (-1) > 0 ∧ r.patientSequenceNumber = p := by
  have key : ∀ (l : List AssignmentRecord) (acc : Finset String),
      p ∈ l.foldl
          (fun patients patient =>
            if patient.slot.getD (-1) > 0 then
              insert patient.patientSequenceNumber patients
            else patients) acc ↔
        p ∈ acc ∨ ∃ r ∈ l, r.slot.getD (-1) > 0 ∧ r.patientSequenceNumber = p := by
    intro l
    induction l with
    | nil => simp
    | cons r l ih =>
        intro acc
        by_cases h : r.slot.getD (-1) > 0
        · simp only [List.foldl_cons, if_pos h, ih, Finset.mem_insert]
          constructor
          · rintro (⟨h1 | h1⟩ | ⟨x, hx, h1, h2⟩)
            · exact Or.inr ⟨r, List.mem_cons_self _ _, h, h1.symm⟩
            · exact Or.inl h1
            · exact Or.inr ⟨x, List.mem_cons_of_mem _ hx, h1, h2⟩
          · rintro (h1 | ⟨x, hx, h1, h2⟩)
            · exact Or.inl (Or.inr h1)
            · rcases List.mem_cons.mp hx with rfl | hx'
              · exact Or.inl (Or.inl h2.symm)
              · exact Or.inr ⟨x, hx', h1, h2⟩
        · simp only [List.foldl_cons, if_neg h, ih]
          constructor
          · rintro (h1 | ⟨x, hx, h1, h2⟩)
            · exact Or.inl h1
            · exact Or.inr ⟨x, List.mem_cons_of_mem _ hx, h1, h2⟩
          · rintro (h1 | ⟨x, hx, h1, h2⟩)
            · exact Or.inl h1
            · rcases List.mem_cons.mp hx with rfl | hx'
              · exact absurd h1 h
              · exact Or.inr ⟨x, hx', h1, h2⟩
  simpa [get_patients_for_arm] using key (f a) ∅

/-- Membership in the folded union of per-arm patient sets. -/
theorem mem_union_fold (g : String → Finset String) (arms : List String) (p : String) :
    ∀ acc, (p ∈ arms.foldl (fun acc a => acc ∪ g a) acc ↔
      p ∈ acc ∨ ∃ a ∈ arms, p ∈ g a) := by
  induction arms with
  | nil => simp
  | cons a arms ih =>
      intro acc
      rw [List.foldl_cons, ih]
      simp only [Finset.mem_union, List.mem_cons]
      constructor
      · rintro (⟨h1 | h1⟩ | ⟨x, hx, h1⟩)
        · exact Or.inl h1
        · exact Or.inr ⟨a, Or.inl rfl, h1⟩
        · exact Or.inr ⟨x, Or.inr hx, h1⟩
      · rintro (h1 | ⟨x, rfl | hx, h1⟩)
        · exact Or.inl (Or.inl h1)
        · exact Or.inl (Or.inr h1)
        · exact Or.inr ⟨x, hx, h1⟩

/-- C9: `get_patients_for_arm` yields exactly the `patientSequenceNumber`s
of assignment records whose slot — read as an integer, defaulting to -1
when absent — is strictly positive; and `validate_patient_count` answers
`True` exactly when the patients of the manifest coincide with the union,
over the configured arms, of those slot-positive patient sets. -/
theorem patient_roster_matches_slot_positive_union
    (f : ArmRecords) (arms : List String) (manifest_patients : List String) :
    (∀ a p, p ∈ get_patients_for_arm f a ↔
      ∃ r ∈ f a, r.slot.getD (-1) > 0 ∧ r.patientSequenceNumber = p) ∧
    (validate_patient_count f arms manifest_patients = true ↔
      ∀ p, (p ∈ manifest_patients ↔ ∃ a ∈ arms, p ∈ get_patients_for_arm f a)) := by
  refine ⟨fun a p => mem_get_patients_for_arm f a p, ?_⟩
  have hflag : ∀ (A : Finset String) (l : List String) (acc : Bool),
      l.foldl (fun r pt => if pt ∈ A then r else false) acc
        = (acc && l.all (fun pt => decide (pt ∈ A))) := fun A l acc =>
    foldl_flagbody (fun pt r => if pt ∈ A then r else false)
      (fun pt => decide (pt ∈ A))
      (fun pt => by by_cases h : pt ∈ A <;> simp [h])
      (fun pt => by by_cases h : pt ∈ A <;> simp [h]) l acc
  have hdef : validate_patient_count f arms manifest_patients
      = ((manifest_patients.foldl
            (fun r pt =>
              if pt ∈ arms.foldl (fun acc arm_id => acc ∪ get_patients_for_arm f arm_id) ∅
              then r else false) true)
          && decide (∀ p ∈ arms.foldl
              (fun acc arm_id => acc ∪ get_patients_for_arm f arm_id) ∅,
              p ∈ manifest_patients)) := rfl
  have hA : ∀ p, (p ∈ arms.foldl (fun acc arm_id => acc ∪ get_patients_for_arm f arm_id) ∅
      ↔ ∃ a ∈ arms, p ∈ get_patients_for_arm f a) := fun p => by
    rw [mem_union_fold]; simp
  rw [hdef, hflag]
  simp only [Bool.true_and, Bool.and_eq_true, List.all_eq_true, decide_eq_true_eq, hA]
  constructor
  · rintro ⟨h1, h2⟩ p
    exact ⟨fun hp => h1 p hp, fun hp => h2 p hp⟩
  · intro h
    exact ⟨fun p hp => (h p).1 hp, fun p hp => (h p).2 hp⟩

/-! ## `split_s3_path` -/

/-- Stripping `"s3://"` consumes a leading occurrence whole. -/
theorem stripS3_append_pat (rest : List Char) : stripS3 (s3Pat ++ rest) = stripS3 rest := rfl

/-- A string with no occurrence of `"s3://"` is left unchanged by the
replacement. -/
theorem stripS3_of_not_infix (s : List Char) (h : ¬ s3Pat <:+: s) : stripS3 s = s := by
  induction s with
  | nil => rfl
  | cons c t ih =>
      rw [stripS3.eq_def]
      split
      · rename_i s1 heq
        exact absurd ⟨[], s1, by simp [s3Pat, heq]⟩ h
      · rename_i c' s' hne heq
        injection heq with h1 h2
        subst h1; subst h2
        rw [ih (fun hinf => h (List.infix_cons hinf))]
      · rename_i heq
        exact absurd heq (by simp)

/-- Splitting on the separator after a separator-free first block pops that
block. -/
theorem splitOn_sep (bucket key : List Char) (h : '/' ∉ bucket) :
    (bucket ++ '/' :: key).splitOn '/' = bucket :: key.splitOn '/' := by
  simp only [List.splitOn]
  exact List.splitOnP_first _ _
    (fun x hx => by simp only [beq_iff_eq]; exact fun hx' => h (hx' ▸ hx)) '/' (by simp) key

/-- C10 fails on the code as stated: `replace("s3://", "")` removes every
occurrence of `"s3://"`, including one straddling the bucket/key boundary.
For bucket `"bs3:"` and key `"/k"` — bucket non-empty, bucket free of `'/'`,
and neither bucket nor key containing `"s3://"` — the joined path is
`"s3://bs3://k"`, the inner occurrence `"s3://"` is removed too, and the
function returns `("bk", "")` instead of `("bs3:", "/k")`. -/
theorem split_s3_path_boundary_occurrence_breaks_round_trip :
    ("s3://bs3://k".toList = s3Pat ++ ("bs3:".toList ++ '/' :: "/k".toList) ∧
      "bs3:".toList ≠ ([] : List Char) ∧ '/' ∉ "bs3:".toList ∧
      ¬ s3Pat <:+: "bs3:".toList ∧ ¬ s3Pat <:+: "/k".toList) ∧
    split_s3_path ("s3://bs3://k".toList) = ("bk".toList, []) ∧
    split_s3_path ("s3://bs3://k".toList) ≠ ("bs3:".toList, "/k".toList) := by
  decide

/-- C10 amended: for a path `"s3://" ++ bucket ++ "/" ++ key` where the
bucket is non-empty and free of `'/'` and where — strengthening the claim's
separate no-`"s3://"` conditions on bucket and key just enough to exclude
the counterexample — the combined `bucket ++ "/" ++ key` contains no
occurrence of `"s3://"`, `split_s3_path` returns exactly (bucket, key), so
re-prepending `"s3://"` and rejoining with `"/"` reconstructs the path. -/
theorem split_s3_path_round_trip (bucket key : List Char)
    (_hne : bucket ≠ [])
    (hslash : '/' ∉ bucket)
    (hocc : ¬ s3Pat <:+: (bucket ++ '/' :: key)) :
    split_s3_path (s3Pat ++ (bucket ++ '/' :: key)) = (bucket, key) := by
  unfold split_s3_path
  rw [stripS3_append_pat, stripS3_of_not_infix _ hocc, splitOn_sep bucket key hslash]
  simp [List.intercalate_splitOn]

/-- Witness for the amended C10 on the path `"s3://b/p/q"`. -/
theorem split_s3_path_round_trip_witness :
    split_s3_path (s3Pat ++ ("b".toList ++ '/' :: "p/q".toList))
      = ("b".toList, "p/q".toList) :=
  split_s3_path_round_trip "b".toList "p/q".toList (by decide) (by decide) (by decide)

end ICDC
